import Mathlib

/-!
# Verification of pocketlang `src/core.c` (operators, subscript and iteration protocols)

This file gives a shallow embedding of the runtime-semantics layer implemented in
`src/core.c` of pocketlang and proves properties of it.

Modelling conventions:
* C `Var` (tagged value, `var.h`) is the inductive `Pocket.Var`.  The two-level
  C representation (primitive tag + `Object*` kind tag) is flattened into one
  inductive; `Pocket.isObjV` recovers the `IS_OBJ` test.  `Number` (C `double`)
  is modelled as `ℚ`: every arithmetic step exercised by the claims
  (integer-valued `+1`/`-1` stepping, equality tests, small sums) is exact in
  IEEE-754 doubles, so ℚ and double agree on them.
* The fiber's sticky error channel (`vm->fiber->error`) is modelled by making
  each operation return an `Outcome`/explicit `Option String`: `.err msg`
  means the C function stored `msg` in `vm->fiber->error` and returned its
  sentinel (`VAR_NULL` for `Var`-returning functions, `false` for the
  `bool`-returning ones) without any further side effect.
* Mutation of a container is modelled by returning the updated container
  (`varsetSubscript` returns the new `Var` on success); an `.err` result means
  the C function returned before touching the container, i.e. no mutation.
* The `TODO` macro (defined in `common.h`, which is not under `src/`) is
  modelled from the spec: "List+List concatenation and any other object
  combination: unimplemented in scope (must surface an explicit
  not-yet-supported condition, never silently mis-handle)".  Reaching `TODO`
  is the distinguished outcome `.todo`: it is not a script-level error and in
  particular sets nothing on the error channel.
* `uint32_t iter = (int32_t)trunc(AS_NUM(*iterator))` is modelled by
  `Pocket.asIter`, exact truncation to ℕ.  The C cast is only defined for
  truncated values in `[-2^31, 2^31)`; iteration states actually produced by
  the protocol are the small non-negative integers on which both agree.
-/

set_option maxHeartbeats 1000000

namespace Pocket

/-- The pocketlang tagged value (`Var` of `var.h`), with the object kinds of
`ObjectType` flattened in: `str`/`list`/`map`/`range`/`func`/`script`/`fiber`/
`user` are the `IS_OBJ` values. -/
inductive Var : Type where
  | null : Var
  | bool (b : Bool) : Var
  | num (q : ℚ) : Var
  | str (s : String) : Var
  | list (elems : List Var) : Var
  | map (slots : List (Option (Var × Var))) : Var
  | range (rangeFrom rangeTo : ℚ) : Var
  | func : Var
  | script : Var
  | fiber : Var
  | user : Var

/-- A map slot (`MapEntry` in `var.h`): `none` models an entry whose key is
`VAR_UNDEF` (empty or tombstoned slot), `some (k, v)` an occupied entry. -/
abbrev MapSlot := Option (Var × Var)

/-- `IS_OBJ(v)`. -/
def isObjV : Var → Bool
  | .null | .bool _ | .num _ => false
  | _ => true

/-- Result of a fallible C function: `ok` is a normal return, `err msg` means
`vm->fiber->error` was set to `msg` and the sentinel (`VAR_NULL` / `false`)
returned, `todo` means the `TODO` unimplemented-placeholder was reached. -/
inductive Outcome (α : Type) : Type where
  | ok (v : α)
  | err (msg : String)
  | todo

/-- Truncation toward zero of a rational, `(int32_t)trunc(double)` without the
int32 wrap (the cast is UB outside `[-2^31, 2^31)`; all values truncated by
the embedded code are small non-negative integers). -/
def ratTrunc (q : ℚ) : ℤ :=
  if q.num < 0 then -((q.num.natAbs / q.den : ℕ) : ℤ) else ((q.num.natAbs / q.den : ℕ) : ℤ)

/-- `isNumeric` of core.c: `Bool` coerces to 0/1, `Number` to its value. -/
def isNumeric : Var → Option ℚ
  | .bool b => some (if b then 1 else 0)
  | .num q => some q
  | _ => none

/-- `validateIngeger` (sic) of core.c: numeric and equal to its own
truncation.  Returns the integer, `none` meaning the
`"$ must be an integer."` error was set. -/
def validateIngeger (v : Var) : Option ℤ :=
  match isNumeric v with
  | none => none
  | some q => if ((ratTrunc q : ℤ) : ℚ) = q then some (ratTrunc q) else none

/-- `varTypeName` (implemented in var.c, not under src/).
Modelled from the spec: a per-kind diagnostic name used in error messages;
claims never depend on the exact text. -/
def varTypeName : Var → String
  | .null => "null"
  | .bool _ => "bool"
  | .num _ => "number"
  | .str _ => "String"
  | .list _ => "List"
  | .map _ => "Map"
  | .range _ _ => "Range"
  | .func => "Function"
  | .script => "Script"
  | .fiber => "Fiber"
  | .user => "UserObj"

/-- `isObjectHashable` (var.h, not under src/).
Modelled from the spec: "only values flagged hashable (all primitives; String
among objects) may be keys" — among object kinds only String is hashable.
Like the C function it is only meaningful on object kinds. -/
def isObjectHashable : Var → Bool
  | .str _ => true
  | _ => false

/-- The C `uint32_t iter` recovered from the iterator `Var`:
`0` for `VAR_NULL`, the truncated value for a `Number`. -/
def asIter : Var → ℕ
  | .num q => (ratTrunc q).toNat
  | _ => 0

/-- The slot scan of `varIterate`'s `OBJ_MAP` case:
`for (; iter < capacity; iter++) if (!IS_UNDEF(entries[iter].key)) break;` —
first occupied slot at index ≥ `iter`, returning its absolute index and key. -/
def mapFindNext : List MapSlot → ℕ → Option (ℕ × Var)
  | [], _ => none
  | entry :: rest, 0 =>
    match entry with
    | some (k, _) => some (0, k)
    | none => (mapFindNext rest 0).map (fun p => (p.1 + 1, p.2))
  | _ :: rest, n + 1 => (mapFindNext rest n).map (fun p => (p.1 + 1, p.2))

/-- Result of `varIterate`: `yield value newState` models `return true` with
`*value`/`*iterator` written; `stop` models `return false` with no error
(end of iteration); `err` models `return false` with `fiber->error` set. -/
inductive IterOut : Type where
  | yield (value newState : Var)
  | stop
  | err (msg : String)
  | todo

/-- `varIterate` of core.c. -/
def varIterate (seq st : Var) : IterOut :=
  match seq with
  | .null => .err "Null is not iterable."
  | .bool _ => .err "Boolenan is not iterable."
  | .num _ => .err "Number is not iterable."
  | .str s =>
    let iter := asIter st
    match s.toList.get? iter with
    | none => .stop
    | some c => .yield (.str (String.mk [c])) (.num ((iter + 1 : ℕ) : ℚ))
  | .list elems =>
    let iter := asIter st
    match elems.get? iter with
    | none => .stop
    | some v => .yield v (.num ((iter + 1 : ℕ) : ℚ))
  | .map slots =>
    let iter := asIter st
    match mapFindNext slots iter with
    | none => .stop
    | some p => .yield p.2 (.num ((p.1 + 1 : ℕ) : ℚ))
  | .range f t =>
    let iter := asIter st
    if f = t then .stop
    else
      let current : ℚ := if f ≤ t then f + (iter : ℚ) else f - (iter : ℚ)
      if current = t then .stop
      else .yield (.num current) (.num ((iter + 1 : ℕ) : ℚ))
  | .script | .func | .fiber | .user => .todo

/-- Fuel-bounded chain of `varIterate` calls: collects the yielded values and
reports whether the chain reached a normal `stop` within `fuel` calls. -/
def iterTrace (seq : Var) : Var → ℕ → List Var × Bool
  | _, 0 => ([], false)
  | st, fuel + 1 =>
    match varIterate seq st with
    | .yield v st' =>
      let p := iterTrace seq st' fuel
      (v :: p.1, p.2)
    | .stop => ([], true)
    | .err _ => ([], false)
    | .todo => ([], false)

/-- The `UNSUPPORT_OPERAND_TYPES(op)` macro of core.c:
`"Unsupported operand types for operator '<op>' <t1> and <t2>"`. -/
def unsupportMsg (op : String) (v1 v2 : Var) : String :=
  "Unsupported operand types for operator '" ++ op ++ "' " ++
    varTypeName v1 ++ " and " ++ varTypeName v2

/-- `varAdd` of core.c.  On the numeric path a non-numeric right operand sets
the `validateNumeric` message; among objects String+String concatenates, a
List left operand reaches `TODO`, everything else the unsupported-operands
(TypeMismatch) message. -/
def varAdd (v1 v2 : Var) : Outcome Var :=
  match isNumeric v1 with
  | some d1 =>
    match isNumeric v2 with
    | some d2 => .ok (.num (d1 + d2))
    | none => .err "Right operand must be a numeric value."
  | none =>
    if isObjV v1 && isObjV v2 then
      match v1, v2 with
      | .str s1, .str s2 => .ok (.str (s1 ++ s2))
      | .list _, _ => .todo
      | _, _ => .err (unsupportMsg "+" v1 v2)
    else
      .err (unsupportMsg "+" v1 v2)

/-- `varSubtract` of core.c. -/
def varSubtract (v1 v2 : Var) : Outcome Var :=
  match isNumeric v1 with
  | some d1 =>
    match isNumeric v2 with
    | some d2 => .ok (.num (d1 - d2))
    | none => .err "Right operand must be a numeric value."
  | none => .err (unsupportMsg "-" v1 v2)

/-- `varMultiply` of core.c. -/
def varMultiply (v1 v2 : Var) : Outcome Var :=
  match isNumeric v1 with
  | some d1 =>
    match isNumeric v2 with
    | some d2 => .ok (.num (d1 * d2))
    | none => .err "Right operand must be a numeric value."
  | none => .err (unsupportMsg "*" v1 v2)

/-- `varDivide` of core.c.  C divides IEEE doubles (`x/0 = ±inf`); in ℚ
division by zero yields 0 — no claim depends on the quotient's value. -/
def varDivide (v1 v2 : Var) : Outcome Var :=
  match isNumeric v1 with
  | some d1 =>
    match isNumeric v2 with
    | some d2 => .ok (.num (d1 / d2))
    | none => .err "Right operand must be a numeric value."
  | none => .err (unsupportMsg "/" v1 v2)

/-- C `fmod`: `a - b * trunc(a/b)` (sign follows the dividend).  `fmod(a, 0)`
is NaN in C, here `a`; no claim depends on that value. -/
def qfmod (a b : ℚ) : ℚ := a - b * ((ratTrunc (a / b) : ℤ) : ℚ)

/-- `varModulo` of core.c: numeric → `fmod`; a String left operand reaches the
`TODO` format-string placeholder; anything else the unsupported-operands
message. -/
def varModulo (v1 v2 : Var) : Outcome Var :=
  match isNumeric v1 with
  | some d1 =>
    match isNumeric v2 with
    | some d2 => .ok (.num (qfmod d1 d2))
    | none => .err "Right operand must be a numeric value."
  | none =>
    match v1 with
    | .str _ => .todo
    | _ => .err (unsupportMsg "%" v1 v2)

/-- `varGreater` of core.c: numeric pairs compare, anything else reaches
`TODO` (returning `false` with no error set). -/
def varGreater (v1 v2 : Var) : Outcome Bool :=
  match isNumeric v1, isNumeric v2 with
  | some d1, some d2 => .ok (decide (d2 < d1))
  | _, _ => .todo

/-- `varLesser` of core.c. -/
def varLesser (v1 v2 : Var) : Outcome Bool :=
  match isNumeric v1, isNumeric v2 with
  | some d1, some d2 => .ok (decide (d1 < d2))
  | _, _ => .todo

/-- Key comparison used by the map (`mapGet`/`mapSet` compare stored keys to
the probe key; implemented in var.c, not under src/).
Modelled from the spec: primitives compare by value, Strings by content;
non-hashable objects never occur as stored keys and compare unequal. -/
def varKeyEq : Var → Var → Bool
  | .null, .null => true
  | .bool a, .bool b => a == b
  | .num a, .num b => decide (a = b)
  | .str a, .str b => a == b
  | _, _ => false

/-- `mapGet` (var.c, not under src/).
Modelled from the spec: "hash table from Value to Value"; lookup scans the
slots for an occupied entry whose key matches and returns its value, `none`
modelling `VAR_UNDEF` (absent). -/
def mapGet (slots : List MapSlot) (key : Var) : Option Var :=
  match slots with
  | [] => none
  | some (k, v) :: rest => if varKeyEq k key then some v else mapGet rest key
  | none :: rest => mapGet rest key

/-- `mapSet` (var.c, not under src/).
Modelled from the spec: "else upsert" — replace the value of the occupied
entry whose key matches, otherwise store the pair in a fresh slot. -/
def mapSet (slots : List MapSlot) (key value : Var) : List MapSlot :=
  match slots with
  | [] => [some (key, value)]
  | some (k, v) :: rest =>
    if varKeyEq k key then some (k, value) :: rest
    else some (k, v) :: mapSet rest key value
  | none :: rest => none :: mapSet rest key value

/-- `toString` (var.c, not under src/).
Modelled from the spec: the string form of a value used by `to_string`,
`print` and `assert` messages.  Claims evaluate it only on Strings, Numbers
and Bools; the exact text for the remaining kinds is immaterial. -/
def toString : Var → String
  | .null => "null"
  | .bool true => "true"
  | .bool false => "false"
  | .num q =>
    if q.den = 1 then ToString.toString q.num
    else ToString.toString q.num ++ "/" ++ ToString.toString q.den
  | .str s => s
  | .list _ => "[...]"
  | .map _ => "{...}"
  | .range f t => "[" ++ ToString.toString f.num ++ ".." ++ ToString.toString t.num ++ "]"
  | .func => "[Func]"
  | .script => "[Script]"
  | .fiber => "[Fiber]"
  | .user => "[UserObj]"

/-- `toBool` (var.c, not under src/).
Modelled from the spec: "Null and Bool(false) are false; every other value —
including 0, empty string, empty List/Map — is true." -/
def toBool : Var → Bool
  | .null => false
  | .bool b => b
  | _ => true

/-- `varGetSubscript` of core.c.  Note the C code passes the name
`"List index"` to `validateIngeger` in the String case too. -/
def varGetSubscript (onV key : Var) : Outcome Var :=
  match onV with
  | .str s =>
    (match validateIngeger key with
     | none => .err "List index must be an integer."
     | some i =>
       if 0 ≤ i ∧ i < (s.toList.length : ℤ) then
         .ok (.str (String.mk [(s.toList.getD i.toNat ' ')]))
       else .err "String index out of range.")
  | .list elems =>
    (match validateIngeger key with
     | none => .err "List index must be an integer."
     | some i =>
       if 0 ≤ i ∧ i < (elems.length : ℤ) then .ok (elems.getD i.toNat .null)
       else .err "List index out of range.")
  | .map slots =>
    (match mapGet slots key with
     | some v => .ok v
     | none =>
       if isObjV key && !(isObjectHashable key) then
         .err ("Invalid key '" ++ toString key ++ "'.")
       else
         .err ("Key '" ++ toString key ++ "' not exists"))
  | .range _ _ | .script | .func | .fiber | .user => .todo
  | _ => .err (varTypeName onV ++ " type is not subscriptable.")

/-- `varsetSubscript` of core.c (name kept with its lowercase `s`).  Success
returns the updated container; `.err` means the function returned with the
error set before any mutation. -/
def varsetSubscript (onV key value : Var) : Outcome Var :=
  match onV with
  | .str _ => .err "String objects are immutable."
  | .list elems =>
    (match validateIngeger key with
     | none => .err "List index must be an integer."
     | some i =>
       if 0 ≤ i ∧ i < (elems.length : ℤ) then .ok (.list (elems.set i.toNat value))
       else .err "List index out of range.")
  | .map slots =>
    if isObjV key && !(isObjectHashable key) then
      .err (varTypeName key ++ " type is not hashable.")
    else .ok (.map (mapSet slots key value))
  | .range _ _ | .script | .func | .fiber | .user => .todo
  | _ => .err (varTypeName onV ++ " type is not subscriptable.")

/-- `varHashValue` (var.c, not under src/).
Modelled from the spec: a numeric hash for hashable values; only the fact
that it is a Number matters to the claims, so any concrete total function
serves. -/
def varHashValue : Var → ℕ
  | .null => 0
  | .bool b => if b then 1 else 2
  | .num q => q.num.natAbs + q.den
  | .str s => s.length
  | _ => 0

/-- `coreHash` of core.c: `(return value, fiber error)`.  An object of a
non-hashable kind returns Null, everything else the numeric hash; no path
writes the error channel. -/
def coreHash (arg1 : Var) : Var × Option String :=
  if isObjV arg1 && !(isObjectHashable arg1) then (.null, none)
  else (.num ((varHashValue arg1 : ℕ) : ℚ), none)

/-- The message branch of `coreAssert`: the C code stringifies `ARG2` unless
it already is a String object.  (The C condition reads `AS_OBJ(ARG2)->type`
without an `IS_OBJ(ARG2)` guard — for a non-object message that dereference
is undefined behaviour; modelled here as the intended "not a String" branch.) -/
def assertMsgForm (m : Var) : String :=
  match m with
  | .str s => s
  | _ => toString m

/-- `coreAssert` of core.c over its argument list; the result is the value
written to `vm->fiber->error` (`none` = error channel untouched). -/
def coreAssert (args : List Var) : Option String :=
  if args.length ≠ 1 ∧ args.length ≠ 2 then some "Invalid argument count."
  else if toBool (args.getD 0 .null) then none
  else if args.length = 2 then
    some ("Assertion failed: '" ++ assertMsgForm (args.getD 1 .null) ++ "'.")
  else some "Assertion failed."

/-- Result of `pkGetArgBool`: the C bool return value, the value written to
`*value`, and the fiber error channel after the call. -/
structure GetArgResult : Type where
  success : Bool
  value : Bool
  error : Option String

/-- `pkGetArgBool` of core.c at a valid argument position: converts the
argument by truthiness, returns `true`, never writes `fiber->error`. -/
def pkGetArgBool (arg : Var) : GetArgResult :=
  { success := true, value := toBool arg, error := none }

/-- Spec-side enumeration (claim C6): the kinds the spec calls hashable —
Null, Bool, Number, String.  Kept separate from the code-derived
`isObjV`/`isObjectHashable` so that proving `coreHash` against it compares
code with spec. -/
def hashableKindClaim : Var → Bool
  | .null | .bool _ | .num _ | .str _ => true
  | _ => false

/-! ## Basic lemmas about truncation and iterator states -/

@[simp]
theorem ratTrunc_intCast (i : ℤ) : ratTrunc (i : ℚ) = i := by
  unfold ratTrunc
  rw [Rat.num_intCast, Rat.den_intCast]
  simp only [Nat.div_one]
  split <;> omega

@[simp]
theorem ratTrunc_natCast (n : ℕ) : ratTrunc (n : ℚ) = n := by
  have : ((n : ℤ) : ℚ) = (n : ℚ) := by push_cast; ring
  rw [← this, ratTrunc_intCast]

@[simp]
theorem asIter_natCast (n : ℕ) : asIter (.num (n : ℚ)) = n := by
  simp [asIter]

@[simp]
theorem asIter_null : asIter .null = 0 := rfl

@[simp]
theorem asIter_zero : asIter (.num 0) = 0 := rfl

@[simp]
theorem validateIngeger_intCast (i : ℤ) : validateIngeger (.num (i : ℚ)) = some i := by
  simp [validateIngeger, isNumeric]

/-! ## Lemmas about the map slot scan -/

/-- A successful scan lands at an occupied slot at or after the start index,
inside the capacity. -/
theorem mapFindNext_some_spec {slots : List MapSlot} {n i : ℕ} {k : Var}
    (h : mapFindNext slots n = some (i, k)) :
    n ≤ i ∧ i < slots.length ∧ ∃ w, slots.get? i = some (some (k, w)) := by
  induction slots generalizing n i with
  | nil => simp [mapFindNext] at h
  | cons entry rest ih =>
    match n with
    | 0 =>
      match entry with
      | some (k', w') =>
        simp only [mapFindNext] at h
        obtain ⟨h1, h2⟩ := Prod.mk.injEq .. ▸ (Option.some.injEq .. ▸ h)
        subst h1; subst h2
        exact ⟨Nat.le_refl _, Nat.succ_pos _, w', rfl⟩
      | none =>
        simp only [mapFindNext, Option.map_eq_some'] at h
        obtain ⟨⟨i', k'⟩, hfind, heq⟩ := h
        obtain ⟨h1, h2⟩ := Prod.mk.injEq .. ▸ heq
        subst h2
        obtain ⟨-, hlen, w, hget⟩ := ih hfind
        refine ⟨Nat.zero_le _, ?_, w, ?_⟩
        · simp only [List.length_cons]; omega
        · rw [← h1]; simpa using hget
    | m + 1 =>
      simp only [mapFindNext, Option.map_eq_some'] at h
      obtain ⟨⟨i', k'⟩, hfind, heq⟩ := h
      obtain ⟨h1, h2⟩ := Prod.mk.injEq .. ▸ heq
      subst h2
      obtain ⟨hle, hlen, w, hget⟩ := ih hfind
      refine ⟨by omega, by simp only [List.length_cons]; omega, w, ?_⟩
      rw [← h1]; simpa using hget

/-- Every slot skipped over by a successful scan is empty. -/
theorem mapFindNext_some_skip {slots : List MapSlot} {n i : ℕ} {k : Var}
    (h : mapFindNext slots n = some (i, k)) :
    ∀ j, n ≤ j → j < i → slots.get? j = some none := by
  induction slots generalizing n i with
  | nil => simp [mapFindNext] at h
  | cons entry rest ih =>
    match n with
    | 0 =>
      match entry with
      | some (k', w') =>
        simp only [mapFindNext] at h
        obtain ⟨h1, h2⟩ := Prod.mk.injEq .. ▸ (Option.some.injEq .. ▸ h)
        subst h1
        intro j _ hj; omega
      | none =>
        simp only [mapFindNext, Option.map_eq_some'] at h
        obtain ⟨⟨i', k'⟩, hfind, heq⟩ := h
        obtain ⟨h1, h2⟩ := Prod.mk.injEq .. ▸ heq
        subst h2
        intro j _ hj
        match j with
        | 0 => rfl
        | j' + 1 =>
          have := ih hfind j' (Nat.zero_le _) (by omega)
          simpa using this
    | m + 1 =>
      simp only [mapFindNext, Option.map_eq_some'] at h
      obtain ⟨⟨i', k'⟩, hfind, heq⟩ := h
      obtain ⟨h1, h2⟩ := Prod.mk.injEq .. ▸ heq
      subst h2
      intro j hjn hj
      match j with
      | 0 => omega
      | j' + 1 =>
        have := ih hfind j' (by omega) (by omega)
        simpa using this

/-- The scan fails exactly when every slot at or after the start index is
empty. -/
theorem mapFindNext_none_iff (slots : List MapSlot) (n : ℕ) :
    mapFindNext slots n = none ↔
      ∀ j, n ≤ j → j < slots.length → slots.get? j = some none := by
  induction slots generalizing n with
  | nil => simp [mapFindNext]
  | cons entry rest ih =>
    match n with
    | 0 =>
      match entry with
      | some (k', w') =>
        simp only [mapFindNext]
        constructor
        · intro h; cases h
        · intro h
          have := h 0 (Nat.le_refl _) (Nat.succ_pos _)
          simp at this
      | none =>
        simp only [mapFindNext, Option.map_eq_none']
        rw [ih 0]
        constructor
        · intro h j _ hj
          match j with
          | 0 => rfl
          | j' + 1 =>
            have := h j' (Nat.zero_le _) (by simpa using hj)
            simpa using this
        · intro h j _ hj
          have := h (j + 1) (Nat.zero_le _) (by simpa using hj)
          simpa using this
    | m + 1 =>
      simp only [mapFindNext, Option.map_eq_none']
      rw [ih m]
      constructor
      · intro h j hjn hj
        match j with
        | 0 => omega
        | j' + 1 =>
          have := h j' (by omega) (by simpa using hj)
          simpa using this
      · intro h j hjn hj
        have := h (j + 1) (by omega) (by simpa using hj)
        simpa using this

/-! ## Lemmas about range iteration -/

/-- `varIterate` on a Range, with the `let`-bound cursor and current value
spelled out. -/
theorem varIterate_range_eq (f t : ℚ) (st : Var) :
    varIterate (.range f t) st =
      (if f = t then .stop
       else if f ≤ t then
         (if f + (asIter st : ℚ) = t then .stop
          else .yield (.num (f + (asIter st : ℚ))) (.num ((asIter st + 1 : ℕ) : ℚ)))
       else
         (if f - (asIter st : ℚ) = t then .stop
          else .yield (.num (f - (asIter st : ℚ))) (.num ((asIter st + 1 : ℕ) : ℚ)))) := by
  show (if f = t then IterOut.stop else _) = _
  by_cases h1 : f = t
  · simp [h1]
  · by_cases h2 : f ≤ t <;> simp [h1, h2]

/-- One chain step of `iterTrace`. -/
theorem iterTrace_succ (seq st : Var) (fuel : ℕ) :
    iterTrace seq st (fuel + 1) =
      match varIterate seq st with
      | .yield v st' => ((v :: (iterTrace seq st' fuel).1), (iterTrace seq st' fuel).2)
      | .stop => ([], true)
      | .err _ => ([], false)
      | .todo => ([], false) := rfl

/-- Ascending integral range: from any chain state `s` with `s + k = d`, the
remaining trace is `f + s, f + (s+1), …, f + (d-1)` and the chain stops. -/
theorem iterTrace_range_up (f : ℚ) (d : ℕ) :
    ∀ (k s : ℕ) (st : Var), asIter st = s → s + k = d →
      iterTrace (.range f (f + (d : ℚ))) st (k + 1) =
        ((List.range k).map (fun j => Var.num (f + ((s + j : ℕ) : ℚ))), true) := by
  intro k
  induction k with
  | zero =>
    intro s st hst hsd
    have hs : s = d := by omega
    subst hs
    rw [iterTrace_succ, varIterate_range_eq, hst]
    by_cases h0 : f = f + (s : ℚ)
    · rw [if_pos h0]; simp
    · rw [if_neg h0, if_pos (le_add_of_nonneg_right (Nat.cast_nonneg s))]
      simp
  | succ k' ih =>
    intro s st hst hsd
    have hd : s < d := by omega
    have hne : f ≠ f + (d : ℚ) := by
      intro h
      have h1 : (d : ℚ) = 0 := by linarith
      have h2 : d = 0 := by exact_mod_cast h1
      omega
    have hcur : f + (s : ℚ) ≠ f + (d : ℚ) := by
      intro h
      have h1 : (s : ℚ) = (d : ℚ) := by linarith
      have h2 : s = d := by exact_mod_cast h1
      omega
    have hle : f ≤ f + (d : ℚ) := le_add_of_nonneg_right (Nat.cast_nonneg d)
    rw [iterTrace_succ, varIterate_range_eq, hst, if_neg hne, if_pos hle, if_neg hcur]
    show (Var.num (f + (s : ℚ)) :: (iterTrace _ (Var.num ((s + 1 : ℕ) : ℚ)) (k' + 1)).1,
          (iterTrace _ (Var.num ((s + 1 : ℕ) : ℚ)) (k' + 1)).2) = _
    rw [ih (s + 1) (.num ((s + 1 : ℕ) : ℚ)) (asIter_natCast (s + 1)) (by omega)]
    simp only [List.range_succ_eq_map, List.map_cons, List.map_map]
    refine congrArg (fun l => (_ :: l, true)) ?_
    refine List.map_congr_left ?_
    intro j _
    simp only [Function.comp_apply, Nat.succ_eq_add_one]
    refine congrArg Var.num (congrArg (f + ·) ?_)
    push_cast
    ring

/-- Descending integral range: from chain state `s` with `s + k = d`, the
remaining trace is `f - s, f - (s+1), …, f - (d-1)` and the chain stops. -/
theorem iterTrace_range_down (f : ℚ) (d : ℕ) :
    ∀ (k s : ℕ) (st : Var), asIter st = s → s + k = d →
      iterTrace (.range f (f - (d : ℚ))) st (k + 1) =
        ((List.range k).map (fun j => Var.num (f - ((s + j : ℕ) : ℚ))), true) := by
  intro k
  induction k with
  | zero =>
    intro s st hst hsd
    have hs : s = d := by omega
    subst hs
    rw [iterTrace_succ, varIterate_range_eq, hst]
    by_cases h0 : f = f - (s : ℚ)
    · rw [if_pos h0]; simp
    · have hs0 : (0 : ℚ) < (s : ℚ) := by
        rcases Nat.eq_zero_or_pos s with h | h
        · exfalso; apply h0; rw [h]; simp
        · exact_mod_cast h
      rw [if_neg h0, if_neg (by linarith : ¬ f ≤ f - (s : ℚ))]
      simp
  | succ k' ih =>
    intro s st hst hsd
    have hd : s < d := by omega
    have hd0 : (0 : ℚ) < (d : ℚ) := by
      have h2 : 0 < d := by omega
      exact_mod_cast h2
    have hne : f ≠ f - (d : ℚ) := by
      intro h
      have h1 : (d : ℚ) = 0 := by linarith
      linarith
    have hcur : f - (s : ℚ) ≠ f - (d : ℚ) := by
      intro h
      have h1 : (s : ℚ) = (d : ℚ) := by linarith
      have h2 : s = d := by exact_mod_cast h1
      omega
    have hle : ¬ f ≤ f - (d : ℚ) := by linarith
    rw [iterTrace_succ, varIterate_range_eq, hst, if_neg hne, if_neg hle, if_neg hcur]
    show (Var.num (f - (s : ℚ)) :: (iterTrace _ (Var.num ((s + 1 : ℕ) : ℚ)) (k' + 1)).1,
          (iterTrace _ (Var.num ((s + 1 : ℕ) : ℚ)) (k' + 1)).2) = _
    rw [ih (s + 1) (.num ((s + 1 : ℕ) : ℚ)) (asIter_natCast (s + 1)) (by omega)]
    simp only [List.range_succ_eq_map, List.map_cons, List.map_map]
    refine congrArg (fun l => (_ :: l, true)) ?_
    refine List.map_congr_left ?_
    intro j _
    simp only [Function.comp_apply, Nat.succ_eq_add_one]
    refine congrArg Var.num (congrArg (f - ·) ?_)
    push_cast
    ring

/-! ## Lemmas about map iteration chains -/

/-- From any chain state `s`, a map-iteration chain reaches `stop` once the
remaining fuel covers the remaining slots. -/
theorem iterTrace_map_stops (slots : List MapSlot) :
    ∀ (fuel s : ℕ) (st : Var), asIter st = s → slots.length ≤ s + fuel →
      (iterTrace (.map slots) st (fuel + 1)).2 = true := by
  intro fuel
  induction fuel with
  | zero =>
    intro s st hst hlen
    have hnone : mapFindNext slots s = none := by
      rw [mapFindNext_none_iff]
      intro j hj hjl
      omega
    simp only [iterTrace, varIterate, hst, hnone]
  | succ f' ih =>
    intro s st hst hlen
    cases hfind : mapFindNext slots s with
    | none =>
      simp only [iterTrace, varIterate, hst, hfind]
    | some p =>
      obtain ⟨i, k⟩ := p
      obtain ⟨hsi, hil, -⟩ := mapFindNext_some_spec hfind
      simp only [iterTrace, varIterate, hst, hfind]
      exact ih (i + 1) (.num ((i + 1 : ℕ) : ℚ)) (asIter_natCast (i + 1)) (by omega)

/-! ## Lemmas about map get/set -/

/-- `varKeyEq` is reflexive on every hashable value (the keys `mapSet` can
ever store). -/
theorem varKeyEq_refl_of_hashable {key : Var}
    (hk : isObjV key = false ∨ isObjectHashable key = true) :
    varKeyEq key key = true := by
  cases key <;> simp_all [varKeyEq, isObjV, isObjectHashable]

/-- Upsert-then-lookup returns the stored value. -/
theorem mapGet_mapSet_self {key : Var} (hk : varKeyEq key key = true)
    (slots : List MapSlot) (value : Var) :
    mapGet (mapSet slots key value) key = some value := by
  induction slots with
  | nil => simp [mapSet, mapGet, hk]
  | cons entry rest ih =>
    match entry with
    | some (k, v) =>
      by_cases h : varKeyEq k key
      · simp [mapSet, mapGet, h]
      · simp [mapSet, mapGet, h, ih]
    | none => simp [mapSet, mapGet, ih]

/-! ## Claim C1 — Range iteration -/

/-- `asIter` on the literal state `Number 1`. -/
theorem asIter_one : asIter (.num 1) = 1 := rfl

/-- C1 (counterexample): the claim "iteration … never yields the value `to`
and stops strictly before reaching it" is false for `Range(0, 1/2)`: the
first call (state Null) yields 0 with next state 1, and the second call —
reached from Null — yields the value 1, which already lies beyond
`to = 1/2`, instead of stopping: the stop test compares the current value to
`to` by equality only. -/
theorem range_noninteger_cex :
    varIterate (.range 0 (1/2)) .null = .yield (.num 0) (.num 1) ∧
    varIterate (.range 0 (1/2)) (.num 1) = .yield (.num 1) (.num 2) ∧
    (1/2 : ℚ) < 1 := by
  refine ⟨?_, ?_, by norm_num⟩
  · rw [varIterate_range_eq]
    norm_num
  · rw [varIterate_range_eq]
    rw [asIter_one]
    norm_num

/-- C1 (amended): for every Range, a successful `varIterate` call never
yields the value `to`, and `Range(f, f)` yields nothing from any state; for
every Range whose endpoints differ by an integer `d`, the chain from Null
yields exactly `f, f±1, …` (`d` values, stepping +1 if `from ≤ to` else −1)
and then stops; in particular `Range(5,5)` yields nothing and `Range(5,1)`
yields 5,4,3,2.  (For a non-integral endpoint difference the chain never
stops — see the counterexample.) -/
theorem range_iterate_amended :
    (∀ f t st v st', varIterate (.range f t) st = .yield v st' →
       ∃ c : ℚ, v = .num c ∧ c ≠ t) ∧
    (∀ (f : ℚ) (st : Var), varIterate (.range f f) st = .stop) ∧
    (∀ (f : ℚ) (d : ℕ), iterTrace (.range f (f + (d : ℚ))) .null (d + 1) =
       ((List.range d).map (fun j : ℕ => Var.num (f + (j : ℚ))), true)) ∧
    (∀ (f : ℚ) (d : ℕ), iterTrace (.range f (f - (d : ℚ))) .null (d + 1) =
       ((List.range d).map (fun j : ℕ => Var.num (f - (j : ℚ))), true)) ∧
    iterTrace (.range 5 5) .null 1 = ([], true) ∧
    iterTrace (.range 5 1) .null 5 =
      ([Var.num 5, Var.num 4, Var.num 3, Var.num 2], true) := by
  have hup : ∀ (f : ℚ) (d : ℕ), iterTrace (.range f (f + (d : ℚ))) .null (d + 1) =
      ((List.range d).map (fun j : ℕ => Var.num (f + (j : ℚ))), true) := by
    intro f d
    have h := iterTrace_range_up f d d 0 .null rfl (by omega)
    simp only [Nat.zero_add] at h
    exact h
  have hdown : ∀ (f : ℚ) (d : ℕ), iterTrace (.range f (f - (d : ℚ))) .null (d + 1) =
      ((List.range d).map (fun j : ℕ => Var.num (f - (j : ℚ))), true) := by
    intro f d
    have h := iterTrace_range_down f d d 0 .null rfl (by omega)
    simp only [Nat.zero_add] at h
    exact h
  refine ⟨?_, ?_, hup, hdown, ?_, ?_⟩
  · intro f t st v st' h
    rw [varIterate_range_eq] at h
    split_ifs at h with h1 h2 h3 h4
    · cases h
      exact ⟨f + (asIter st : ℚ), rfl, h3⟩
    · cases h
      exact ⟨f - (asIter st : ℚ), rfl, h4⟩
  · intro f st
    rw [varIterate_range_eq]
    simp
  · have h := hup 5 0
    rw [show (5 : ℚ) + ((0 : ℕ) : ℚ) = 5 by norm_num] at h
    simpa using h
  · have h := hdown 5 4
    rw [show (5 : ℚ) - ((4 : ℕ) : ℚ) = 1 by norm_num] at h
    rw [h]
    norm_num [List.range_succ]

/-- C1 (witness): the amended theorem applied at `Range(5,1)` from state Null
and at `Range(3,3)`. -/
theorem range_iterate_amended_wit :
    (∃ c : ℚ, Var.num 5 = Var.num c ∧ c ≠ 1) ∧
    varIterate (.range 3 3) .null = .stop := by
  constructor
  · exact range_iterate_amended.1 5 1 .null (.num 5) (.num 1)
      (by rw [varIterate_range_eq]; norm_num)
  · exact range_iterate_amended.2.1 3 .null

/-! ## Claim C2 — arithmetic type errors -/

/-- C2 (counterexample): `varAdd` on two Lists (left operand non-numeric and
not a String+String pair) does not set a TypeMismatch error: it reaches the
`TODO` placeholder for List concatenation. -/
theorem arith_todo_cex :
    varAdd (Var.list []) (Var.list []) = Outcome.todo ∧
    ¬ ∃ m, varAdd (Var.list []) (Var.list []) = Outcome.err m := by
  refine ⟨rfl, ?_⟩
  rintro ⟨m, hm⟩
  rw [show varAdd (Var.list []) (Var.list []) = Outcome.todo from rfl] at hm
  cases hm

/-- C2 (amended): with a left operand that is neither numeric nor part of a
String+String pair, every arithmetic operation sets a type error and returns
the Null sentinel — except `varAdd` with a List left operand and an object
right operand, and `varModulo` with a String left operand, which reach the
unimplemented `TODO` placeholder instead. -/
theorem arith_type_mismatch_amended :
    ∀ v1 v2, isNumeric v1 = none →
      ((∀ s1 s2, ¬(v1 = .str s1 ∧ v2 = .str s2)) →
       (∀ e, v1 = .list e → isObjV v2 = false) →
         ∃ m, varAdd v1 v2 = .err m) ∧
      (∃ m, varSubtract v1 v2 = .err m) ∧
      (∃ m, varMultiply v1 v2 = .err m) ∧
      (∃ m, varDivide v1 v2 = .err m) ∧
      ((∀ s, v1 ≠ .str s) → ∃ m, varModulo v1 v2 = .err m) := by
  intro v1 v2 h
  have hsub : varSubtract v1 v2 = .err (unsupportMsg "-" v1 v2) := by
    simp only [varSubtract, h]
  have hmul : varMultiply v1 v2 = .err (unsupportMsg "*" v1 v2) := by
    simp only [varMultiply, h]
  have hdiv : varDivide v1 v2 = .err (unsupportMsg "/" v1 v2) := by
    simp only [varDivide, h]
  refine ⟨?_, ⟨_, hsub⟩, ⟨_, hmul⟩, ⟨_, hdiv⟩, ?_⟩
  · intro hss hlist
    cases v1 <;> cases v2 <;>
      first
        | exact Option.noConfusion h
        | exact absurd ⟨rfl, rfl⟩ (hss _ _)
        | exact Bool.noConfusion (hlist _ rfl)
        | exact ⟨_, rfl⟩
  · intro hstr
    cases v1 <;>
      first
        | exact Option.noConfusion h
        | exact absurd rfl (hstr _)
        | exact ⟨_, rfl⟩

/-- C2 (witness): the amended theorem applied at `null + null` and
`null % null`. -/
theorem arith_type_mismatch_amended_wit :
    (∃ m, varAdd Var.null Var.null = Outcome.err m) ∧
    (∃ m, varModulo Var.null Var.null = Outcome.err m) := by
  have h := arith_type_mismatch_amended .null .null rfl
  exact ⟨h.1 (fun s1 s2 hc => Var.noConfusion hc.1) (fun e hc => Var.noConfusion hc),
         h.2.2.2.2 (fun s hc => Var.noConfusion hc)⟩

/-! ## Claim C8 — comparison operators -/

/-- C8 (counterexample): `varGreater`/`varLesser` with a non-numeric operand
do not set a TypeMismatch error: they reach the `TODO` placeholder and return
`false` with the error channel untouched. -/
theorem compare_todo_cex :
    (¬ ∃ m, varGreater Var.null (Var.num 0) = Outcome.err m) ∧
    (¬ ∃ m, varLesser Var.null (Var.num 0) = Outcome.err m) := by
  constructor <;> · rintro ⟨m, hm⟩; simp [varGreater, varLesser, isNumeric] at hm

/-- C8 (amended): with any non-numeric operand, `varGreater` and `varLesser`
uniformly reach the unimplemented `TODO` placeholder (returning `false`
without setting any error), rather than setting a TypeMismatch error. -/
theorem compare_todo_amended :
    ∀ v1 v2, (isNumeric v1 = none ∨ isNumeric v2 = none) →
      varGreater v1 v2 = Outcome.todo ∧ varLesser v1 v2 = Outcome.todo := by
  intro v1 v2 h
  cases h1 : isNumeric v1 with
  | none => constructor <;> simp [varGreater, varLesser, h1]
  | some d1 =>
    cases h2 : isNumeric v2 with
    | none => constructor <;> simp [varGreater, varLesser, h1, h2]
    | some d2 =>
      rw [h1, h2] at h
      simp at h

/-- C8 (witness): the amended theorem applied at `null` operands. -/
theorem compare_todo_amended_wit :
    varGreater Var.null Var.null = Outcome.todo ∧
    varLesser Var.null Var.null = Outcome.todo :=
  compare_todo_amended .null .null (Or.inl rfl)

/-! ## Claim C3 — List subscript -/

/-- C3: for a List and an integer index in `[0, count)`, `varsetSubscript`
stores the value in place and a subsequent `varGetSubscript` at the same
index returns it; for an integer index outside `[0, count)`,
`varsetSubscript` sets the `"List index out of range."` error and returns
before touching the elements (no mutation). -/
theorem list_subscript_spec (elems : List Var) (i : ℤ) (v : Var) :
    (0 ≤ i → i < (elems.length : ℤ) →
       varsetSubscript (.list elems) (.num (i : ℚ)) v = .ok (.list (elems.set i.toNat v)) ∧
       varGetSubscript (.list (elems.set i.toNat v)) (.num (i : ℚ)) = .ok v) ∧
    (¬(0 ≤ i ∧ i < (elems.length : ℤ)) →
       varsetSubscript (.list elems) (.num (i : ℚ)) v = .err "List index out of range.") := by
  constructor
  · intro h0 h1
    constructor
    · simp only [varsetSubscript, validateIngeger_intCast]
      rw [if_pos ⟨h0, h1⟩]
    · simp only [varGetSubscript, validateIngeger_intCast, List.length_set]
      rw [if_pos ⟨h0, h1⟩]
      have hlt : i.toNat < elems.length := by omega
      simp [List.getD_eq_getElem?_getD, List.getElem?_set_self', hlt]
  · intro h
    simp only [varsetSubscript, validateIngeger_intCast]
    rw [if_neg h]

/-- C3 (witness): the theorem applied to the list `[null, null]` at index 1
and at the out-of-range index 2. -/
theorem list_subscript_spec_wit :
    (varsetSubscript (.list [Var.null, Var.null]) (.num ((1 : ℤ) : ℚ)) (Var.num 7) =
       .ok (.list ([Var.null, Var.null].set (1 : ℤ).toNat (Var.num 7))) ∧
     varGetSubscript (.list ([Var.null, Var.null].set (1 : ℤ).toNat (Var.num 7)))
       (.num ((1 : ℤ) : ℚ)) = .ok (Var.num 7)) ∧
    varsetSubscript (.list [Var.null, Var.null]) (.num ((2 : ℤ) : ℚ)) (Var.num 7) =
      .err "List index out of range." := by
  constructor
  · exact (list_subscript_spec [Var.null, Var.null] 1 (Var.num 7)).1
      (by decide) (by decide)
  · exact (list_subscript_spec [Var.null, Var.null] 2 (Var.num 7)).2
      (by intro hc; exact absurd hc.2 (by decide))

/-! ## Claim C4 — Map subscript -/

/-- C4: on a Map, `varsetSubscript` with a non-hashable key (an object kind
other than String) sets the `"… type is not hashable."` error before any
mutation; with a hashable key it upserts, and a subsequent
`varGetSubscript` of the same key returns the stored value. -/
theorem map_subscript_spec :
    (∀ (slots : List MapSlot) (key value : Var),
       isObjV key = true → isObjectHashable key = false →
       varsetSubscript (.map slots) key value =
         .err (varTypeName key ++ " type is not hashable.")) ∧
    (∀ (slots : List MapSlot) (key value : Var),
       (isObjV key = false ∨ isObjectHashable key = true) →
       varsetSubscript (.map slots) key value = .ok (.map (mapSet slots key value)) ∧
       varGetSubscript (.map (mapSet slots key value)) key = .ok value) := by
  constructor
  · intro slots key value h1 h2
    simp [varsetSubscript, h1, h2]
  · intro slots key value hk
    have hkeq := varKeyEq_refl_of_hashable hk
    have hcond : ¬((isObjV key && !(isObjectHashable key)) = true) := by
      rcases hk with h | h <;> simp [h]
    constructor
    · simp only [varsetSubscript]
      rw [if_neg hcond]
    · simp only [varGetSubscript, mapGet_mapSet_self hkeq]

/-- C4 (witness): the theorem applied with a List key (non-hashable) and a
String key (hashable) on the empty map. -/
theorem map_subscript_spec_wit :
    varsetSubscript (.map []) (.list []) (Var.num 7) =
      .err (varTypeName (.list []) ++ " type is not hashable.") ∧
    (varsetSubscript (.map []) (.str "k") (Var.num 7) =
       .ok (.map (mapSet [] (.str "k") (Var.num 7))) ∧
     varGetSubscript (.map (mapSet [] (.str "k") (Var.num 7))) (.str "k") =
       .ok (Var.num 7)) := by
  constructor
  · exact map_subscript_spec.1 [] (.list []) (Var.num 7) rfl rfl
  · exact map_subscript_spec.2 [] (.str "k") (Var.num 7) (Or.inr rfl)

/-! ## Claims C5 and C9 — iterator states and map iteration -/

/-- `varIterate` on a Map from an integer state, with the cursor resolved. -/
theorem varIterate_map_eq (slots : List MapSlot) (n : ℕ) :
    varIterate (.map slots) (.num (n : ℚ)) =
      match mapFindNext slots n with
      | none => .stop
      | some p => .yield p.2 (.num ((p.1 + 1 : ℕ) : ℚ)) := by
  simp only [varIterate, asIter_natCast]

/-- A map iteration call from integer state `n` stops exactly when every slot
at index ≥ `n` is empty. -/
theorem varIterate_map_stop_iff (slots : List MapSlot) (n : ℕ) :
    varIterate (.map slots) (.num (n : ℚ)) = .stop ↔
      ∀ j, n ≤ j → j < slots.length → slots.get? j = some none := by
  rw [varIterate_map_eq]
  cases hfind : mapFindNext slots n with
  | none => exact ⟨fun _ => (mapFindNext_none_iff slots n).mp hfind, fun _ => rfl⟩
  | some p =>
    constructor
    · intro hc
      cases hc
    · intro hall
      have hnone := (mapFindNext_none_iff slots n).mpr hall
      rw [hfind] at hnone
      cases hnone

/-- C5 (counterexample): the claim "the state is … a non-negative integer
Number equal to the number of completed iteration steps" is false for Maps:
on the map whose slot 0 is empty and slot 1 holds key `"k"`, the first call
(one completed step) returns state `Number 2` — the slot cursor — not
`Number 1`. -/
theorem map_state_step_count_cex :
    varIterate (.map [none, some (Var.str "k", Var.null)]) .null =
      .yield (Var.str "k") (.num ((2 : ℕ) : ℚ)) ∧
    ((2 : ℕ) : ℚ) ≠ 1 := by
  constructor
  · rfl
  · norm_num

/-- C5 (amended): the state is Null before the first call (treated exactly as
the integer 0) and every successful call returns a positive integer Number
state; for String, List and Range the state counts completed steps (call at
state `n` returns `n+1`); for a Map the returned state is one plus the slot
index of the yielded key, which is the first occupied slot at or after the
resume index (keys therefore come in ascending slot order, skipping empty
slots), and iteration stops exactly when no occupied slot remains at or
after the resume index. -/
theorem iterate_state_amended :
    (∀ seq, varIterate seq .null = varIterate seq (.num ((0 : ℕ) : ℚ))) ∧
    (∀ seq st v st', varIterate seq st = .yield v st' →
       ∃ m : ℕ, st' = .num (m : ℚ) ∧ 1 ≤ m) ∧
    (∀ (s : String) (n : ℕ) v st',
       varIterate (.str s) (.num (n : ℚ)) = .yield v st' →
       st' = .num ((n + 1 : ℕ) : ℚ)) ∧
    (∀ (elems : List Var) (n : ℕ) v st',
       varIterate (.list elems) (.num (n : ℚ)) = .yield v st' →
       st' = .num ((n + 1 : ℕ) : ℚ)) ∧
    (∀ (f t : ℚ) (n : ℕ) v st',
       varIterate (.range f t) (.num (n : ℚ)) = .yield v st' →
       st' = .num ((n + 1 : ℕ) : ℚ)) ∧
    (∀ (slots : List MapSlot) (n i : ℕ) (k : Var), mapFindNext slots n = some (i, k) →
       varIterate (.map slots) (.num (n : ℚ)) = .yield k (.num ((i + 1 : ℕ) : ℚ)) ∧
       n ≤ i ∧ (∃ w, slots.get? i = some (some (k, w))) ∧
       (∀ j, n ≤ j → j < i → slots.get? j = some none)) ∧
    (∀ (slots : List MapSlot) (n : ℕ),
       varIterate (.map slots) (.num (n : ℚ)) = .stop ↔
       ∀ j, n ≤ j → j < slots.length → slots.get? j = some none) := by
  refine ⟨?_, ?_, ?_, ?_, ?_, ?_, varIterate_map_stop_iff⟩
  · intro seq
    cases seq <;> simp [varIterate]
  · intro seq st v st' h
    cases seq with
    | null => simp [varIterate] at h
    | bool b => simp [varIterate] at h
    | num q => simp [varIterate] at h
    | func => simp [varIterate] at h
    | script => simp [varIterate] at h
    | fiber => simp [varIterate] at h
    | user => simp [varIterate] at h
    | str s =>
      simp only [varIterate] at h
      split at h
      · cases h
      · cases h
        exact ⟨asIter st + 1, rfl, by omega⟩
    | list elems =>
      simp only [varIterate] at h
      split at h
      · cases h
      · cases h
        exact ⟨asIter st + 1, rfl, by omega⟩
    | map slots =>
      simp only [varIterate] at h
      split at h
      · cases h
      · cases h
        exact ⟨_ + 1, rfl, by omega⟩
    | range f t =>
      rw [varIterate_range_eq] at h
      split_ifs at h with h1 h2 h3 h4
      · cases h
        exact ⟨asIter st + 1, rfl, by omega⟩
      · cases h
        exact ⟨asIter st + 1, rfl, by omega⟩
  · intro s n v st' h
    simp only [varIterate, asIter_natCast] at h
    split at h
    · cases h
    · cases h
      rfl
  · intro elems n v st' h
    simp only [varIterate, asIter_natCast] at h
    split at h
    · cases h
    · cases h
      rfl
  · intro f t n v st' h
    rw [varIterate_range_eq] at h
    simp only [asIter_natCast] at h
    split_ifs at h with h1 h2 h3 h4
    · cases h
      rfl
    · cases h
      rfl
  · intro slots n i k hfind
    obtain ⟨hni, hlen, w, hget⟩ := mapFindNext_some_spec hfind
    refine ⟨?_, hni, ⟨w, hget⟩, mapFindNext_some_skip hfind⟩
    rw [varIterate_map_eq, hfind]

/-- C5 (witness): the amended theorem applied at a one-element List (state
Null, one step) and at a Map whose first occupied slot is slot 0. -/
theorem iterate_state_amended_wit :
    (∃ m : ℕ, Var.num ((0 + 1 : ℕ) : ℚ) = Var.num (m : ℚ) ∧ 1 ≤ m) ∧
    varIterate (.map [some (Var.str "k", Var.null)]) (.num ((0 : ℕ) : ℚ)) =
      .yield (Var.str "k") (.num ((0 + 1 : ℕ) : ℚ)) := by
  constructor
  · exact iterate_state_amended.2.1 (.list [Var.null]) .null Var.null
      (.num ((0 + 1 : ℕ) : ℚ)) rfl
  · exact (iterate_state_amended.2.2.2.2.2.1 [some (Var.str "k", Var.null)] 0 0
      (Var.str "k") rfl).1

/-- C9: every successful map-iteration call from integer state `s` returns a
state strictly greater than `s` and at most the capacity; a call fails
(returns false without error) exactly when no occupied slot exists at index
≥ `s`; and the chain from Null reaches its stopping call within
`capacity + 1` calls. -/
theorem map_iterate_progress :
    (∀ (slots : List MapSlot) (s : ℕ) (k st' : Var),
       varIterate (.map slots) (.num (s : ℚ)) = .yield k st' →
       ∃ s' : ℕ, st' = .num (s' : ℚ) ∧ s < s' ∧ s' ≤ slots.length) ∧
    (∀ (slots : List MapSlot) (s : ℕ),
       varIterate (.map slots) (.num (s : ℚ)) = .stop ↔
       ∀ j, s ≤ j → j < slots.length → slots.get? j = some none) ∧
    (∀ slots : List MapSlot,
       (iterTrace (.map slots) .null (slots.length + 1)).2 = true) := by
  refine ⟨?_, varIterate_map_stop_iff, ?_⟩
  · intro slots s k st' h
    rw [varIterate_map_eq] at h
    cases hfind : mapFindNext slots s with
    | none =>
      rw [hfind] at h
      cases h
    | some p =>
      obtain ⟨i, k'⟩ := p
      rw [hfind] at h
      cases h
      obtain ⟨hsi, hlen, -⟩ := mapFindNext_some_spec hfind
      exact ⟨i + 1, rfl, by omega, by omega⟩
  · intro slots
    exact iterTrace_map_stops slots slots.length 0 .null rfl (by omega)

/-- C9 (witness): the theorem applied at the one-slot map `[(k, null)]` from
state 0 and its stop condition at state 1. -/
theorem map_iterate_progress_wit :
    (∃ s' : ℕ, Var.num ((0 + 1 : ℕ) : ℚ) = Var.num (s' : ℚ) ∧ 0 < s' ∧
       s' ≤ [some (Var.str "k", Var.null)].length) ∧
    (iterTrace (.map [some (Var.str "k", Var.null)]) .null
       ([some (Var.str "k", Var.null)].length + 1)).2 = true := by
  constructor
  · exact map_iterate_progress.1 [some (Var.str "k", Var.null)] 0 (Var.str "k")
      (.num ((0 + 1 : ℕ) : ℚ)) rfl
  · exact map_iterate_progress.2.2 [some (Var.str "k", Var.null)]

/-! ## Claim C6 — hash totality -/

/-- C6: `coreHash` never writes the error channel; it returns a Number for
every hashable kind (Null, Bool, Number, String) and Null for every
non-hashable object kind (List, Map, Range, Function, Script, Fiber,
UserObj). -/
theorem hash_total_spec :
    ∀ v, (coreHash v).2 = none ∧
      (hashableKindClaim v = true → ∃ n : ℕ, (coreHash v).1 = .num (n : ℚ)) ∧
      (hashableKindClaim v = false → (coreHash v).1 = .null) := by
  intro v
  refine ⟨?_, ?_, ?_⟩
  · cases v <;> rfl
  · intro h
    cases v <;> first | exact ⟨_, rfl⟩ | exact Bool.noConfusion h
  · intro h
    cases v <;> first | rfl | exact Bool.noConfusion h

/-- C6 (witness): the theorem applied at a String (hashable) and a List
(non-hashable). -/
theorem hash_total_spec_wit :
    (∃ n : ℕ, (coreHash (Var.str "a")).1 = .num (n : ℚ)) ∧
    (coreHash (Var.list [])).1 = .null :=
  ⟨(hash_total_spec (Var.str "a")).2.1 rfl, (hash_total_spec (Var.list [])).2.2 rfl⟩

/-! ## Claim C7 — assert -/

/-- C7: `coreAssert` evaluated on the claim's behaviours, including the
failing input `assert(false, 42)`.  The model follows the C code's intent;
the C condition `AS_OBJ(ARG2)->type != OBJ_STRING` dereferences `AS_OBJ` of
a non-object message without an `IS_OBJ` guard, which for the `Number 42`
message is an invalid-pointer read (undefined behaviour) — see
`assertMsgForm`. -/
theorem assert_eval :
    coreAssert [Var.bool false, Var.num 42] = some "Assertion failed: '42'." ∧
    coreAssert [Var.bool false] = some "Assertion failed." ∧
    coreAssert [Var.bool true] = none ∧
    coreAssert [Var.bool true, Var.null] = none ∧
    coreAssert [] = some "Invalid argument count." ∧
    coreAssert [Var.bool true, Var.null, Var.null] = some "Invalid argument count." := by
  refine ⟨?_, rfl, rfl, rfl, rfl, rfl⟩
  rfl

/-! ## Claim C10 — boolean argument extraction -/

/-- C10: `pkGetArgBool` is total: for every argument value it succeeds
(returns `true`), leaves the error channel untouched, and converts by
truthiness — the extracted value is `false` exactly for Null and
Bool(false). -/
theorem pkGetArgBool_total :
    ∀ v, (pkGetArgBool v).success = true ∧ (pkGetArgBool v).error = none ∧
      ((pkGetArgBool v).value = false ↔ (v = .null ∨ v = .bool false)) := by
  intro v
  refine ⟨rfl, rfl, ?_⟩
  cases v <;> simp [pkGetArgBool, toBool]

end Pocket
